import Mathlib

/-!
Verification development for the simp_adapter repository: a shallow embedding
of the request-normalization and response-translation core of the latest
iteration of the chat-completions proxy in server.js, together with theorems
settling the behavioural claims about it.

Strings are modelled as Lean strings (code points); JavaScript values arriving
as untrusted JSON are modelled by the JsValue type.  The regular-expression
matches of the source are modelled by explicit, executable scanning functions
that reproduce the leftmost-match and greedy/lazy semantics of the concrete
patterns used by the code.
-/

namespace SimpAdapter

/-- JSON-like JavaScript runtime values (the payloads the handler inspects). -/
inductive JsValue where
  | null
  | bool (b : Bool)
  | num (n : Int)
  | str (s : String)
  | arr (elems : List JsValue)
  | obj (fields : List (String × JsValue))

/-- JavaScript truthiness of a value. -/
def jsTruthy : JsValue → Bool
  | .null => false
  | .bool b => b
  | .num n => n != 0
  | .str s => s != ""
  | .arr _ => true
  | .obj _ => true

/-- Truthiness of a possibly-undefined value (undefined is falsy). -/
def jsTruthyOpt : Option JsValue → Bool
  | some v => jsTruthy v
  | none => false

/-- Object-field lookup; a duplicated key resolves to its last value, as in
JavaScript object literals and JSON.parse. -/
def jsGet : List (String × JsValue) → String → Option JsValue
  | [], _ => none
  | (k2, v) :: rest, k =>
    match jsGet rest k with
    | some v2 => some v2
    | none => if k2 = k then some v else none

/-- Property access on a value: objects by key, strings and arrays expose a
numeric length property; every other access is undefined. -/
def jsField : JsValue → String → Option JsValue
  | .obj fs, k => jsGet fs k
  | .arr xs, k => if k = "length" then some (.num (Int.ofNat xs.length)) else none
  | .str s, k => if k = "length" then some (.num (Int.ofNat s.length)) else none
  | _, _ => none

/-- The left brace character, written by code point. -/
def lbraceChar : Char := Char.ofNat 123

/-- The right brace character, written by code point. -/
def rbraceChar : Char := Char.ofNat 125

/-- Whitespace in the sense of the JavaScript regex class backslash-s and of
String.prototype.trim (the code points the inputs of this program can carry). -/
def isJsSpace (c : Char) : Bool :=
  c = ' ' || c = '\t' || c = '\n' || c = '\r' ||
  c = Char.ofNat 11 || c = Char.ofNat 12 || c = Char.ofNat 0xa0 || c = Char.ofNat 0xfeff

/-- Line terminators recognised by the multiline anchor of JavaScript regexes. -/
def isLineTermChar (c : Char) : Bool :=
  c = '\n' || c = '\r' || c = Char.ofNat 0x2028 || c = Char.ofNat 0x2029

/-- Carriage return or newline, the class excluded by the capture groups that
read to end-of-line. -/
def isCRLF (c : Char) : Bool := c = '\n' || c = '\r'

/-- String.prototype.trim on a character list. -/
def trimL (l : List Char) : List Char :=
  ((l.dropWhile isJsSpace).reverse.dropWhile isJsSpace).reverse

/-- String.prototype.trim. -/
def jsTrim (s : String) : String := ⟨trimL s.data⟩

/-- Case-sensitive literal-prefix test (first argument is the pattern). -/
def csPrefix : List Char → List Char → Bool
  | [], _ => true
  | _ :: _, [] => false
  | p :: ps, c :: cs => if p = c then csPrefix ps cs else false

/-- ASCII lower-casing, enough for the case-insensitive literals of the code. -/
def lowerChar (c : Char) : Char :=
  if 'A' ≤ c && c ≤ 'Z' then Char.ofNat (c.toNat + 32) else c

/-- Case-insensitive literal-prefix test. -/
def ciPrefix : List Char → List Char → Bool
  | [], _ => true
  | _ :: _, [] => false
  | p :: ps, c :: cs => if lowerChar p = lowerChar c then ciPrefix ps cs else false

/-- Split a list at the leftmost occurrence of a literal pattern, returning the
part before the occurrence and the suffix starting at the occurrence.  The
prefix test is a parameter so the same scanner serves the case-sensitive and
case-insensitive literals. -/
def breakOnSubP (pref : List Char → List Char → Bool) (pat : List Char) :
    List Char → Option (List Char × List Char)
  | [] => if pref pat [] then some ([], []) else none
  | c :: rest =>
    if pref pat (c :: rest) then some ([], c :: rest)
    else
      match breakOnSubP pref pat rest with
      | some (p, s) => some (c :: p, s)
      | none => none

/-- Leftmost case-sensitive occurrence. -/
def breakOnSub (pat : List Char) (l : List Char) : Option (List Char × List Char) :=
  breakOnSubP csPrefix pat l

/-- Leftmost case-insensitive occurrence. -/
def breakOnSubCI (pat : List Char) (l : List Char) : Option (List Char × List Char) :=
  breakOnSubP ciPrefix pat l

/-- Replace the first occurrence of a literal pattern by the empty string, as
header.replace does in the source. -/
def jsReplaceFirstL (l pat : List Char) : List Char :=
  match breakOnSub pat l with
  | some (pre, suf) => pre ++ suf.drop pat.length
  | none => l

/-- String.prototype.split on a single separator character; always returns at
least one (possibly empty) segment, as in JavaScript. -/
def splitOnChar (sep : Char) : List Char → List (List Char)
  | [] => [[]]
  | c :: rest =>
    match splitOnChar sep rest with
    | [] => [[c]]
    | g :: gs => if c = sep then [] :: g :: gs else (c :: g) :: gs

/-- Hexadecimal digit, either case. -/
def isHexChar (c : Char) : Bool :=
  ('0' ≤ c && c ≤ '9') || ('a' ≤ c && c ≤ 'f') || ('A' ≤ c && c ≤ 'F')

/-- The anchored case-insensitive 8-4-4-4-12 UUID lexical test of the source
(uuidRegex.test), expressed on the hyphen-separated segments. -/
def uuidTest (s : String) : Bool :=
  match splitOnChar '-' s.data with
  | [a, b, c, d, e] =>
    a.length = 8 && b.length = 4 && c.length = 4 && d.length = 4 && e.length = 12 &&
    (a ++ b ++ c ++ d ++ e).all isHexChar
  | _ => false

/-- JavaScript coercion of a possibly-undefined string to the string the regex
test receives (undefined prints as the word undefined). -/
def jsUndefStr : Option String → String
  | some s => s
  | none => "undefined"

/-- Error message of the handler for a missing or malformed Authorization header. -/
def authHeaderMsg : String := "Authorization header missing or invalid"

/-- Error message of the handler for a chatbot UUID failing the lexical test. -/
def uuidErrMsg : String := "Invalid chatbot UUID format"

/-- Error message of the handler when no user query could be extracted. -/
def noMsgErrMsg : String := "No user message found"

/-- The literal Bearer prefix expected on the Authorization header. -/
def bearerPat : List Char := "Bearer ".data

/-- Authorization-header parsing of the source: require the Bearer prefix, drop
its first occurrence, trim, split on every colon, and destructure the first two
segments into the api token and the chatbot UUID (the latter undefined when the
remainder holds no colon). -/
def authParse : Option String → Except String (String × Option String)
  | none => .error authHeaderMsg
  | some h =>
    if csPrefix bearerPat h.data then
      let authData := trimL (jsReplaceFirstL h.data bearerPat)
      let parts := splitOnChar ':' authData
      .ok (⟨parts.headD []⟩, (parts.get? 1).map (fun l => (⟨l⟩ : String)))
    else .error authHeaderMsg

/-- The literal marker introducing the system section of the legacy string format. -/
def sysPat : List Char := "System:".data

/-- The literal marker introducing the context block of the legacy string format. -/
def cePat : List Char := "Contexto Extra".data

/-- The literal marker introducing a human line of the legacy string format. -/
def humanPat : List Char := "Human:".data

/-- The literal marker introducing the query of the context block (matched
case-insensitively). -/
def qPat : List Char := "Query:".data

/-- The literal marker introducing the user key of the context block (matched
case-insensitively). -/
def ukPat : List Char := "user_key:".data

/-- Model of the system-section match of the source: from after the first
occurrence of the System marker and the greedy whitespace following it, the
lazy capture runs up to the first occurrence of the Contexto Extra marker, or
to the end of the string when that marker never occurs.  The result is the
untrimmed capture. -/
def systemCaptureL (l : List Char) : Option (List Char) :=
  match breakOnSub sysPat l with
  | none => none
  | some (_, suf) =>
    let body := (suf.drop 7).dropWhile isJsSpace
    match breakOnSub cePat body with
    | some (pre, _) => some pre
    | none => some body

/-- Model of the context-block match of the source: the leftmost occurrence of
the Contexto Extra marker that is followed, after greedy whitespace, by the
Human marker; the capture is the rest of the string after the Human marker and
the greedy whitespace following it.  Positions are tried left to right exactly
as the regex engine does. -/
def contextoCaptureL : List Char → Option (List Char)
  | [] => none
  | c :: rest =>
    if csPrefix cePat (c :: rest) then
      let afterWs := ((c :: rest).drop 14).dropWhile isJsSpace
      if csPrefix humanPat afterWs then
        some ((afterWs.drop 6).dropWhile isJsSpace)
      else contextoCaptureL rest
    else contextoCaptureL rest

/-- Model of the query match inside the context block: the capture runs from
after the first case-insensitive Query marker up to the first subsequent
case-insensitive user_key marker (the lazy group and the greedy whitespace on
both sides are absorbed by the trim the caller applies).  No user_key marker
after the first Query marker means no match, which coincides with the regex
because a user_key occurrence after a later Query occurrence would also lie
after the first one. -/
def queryCaptureL (l : List Char) : Option (List Char) :=
  match breakOnSubCI qPat l with
  | none => none
  | some (_, suf) =>
    match breakOnSubCI ukPat (suf.drop 6) with
    | none => none
    | some (pre, _) => some pre

/-- Model of the user-key match inside the context block: after the first
case-insensitive user_key marker, greedy whitespace (newlines included) is
skipped and the capture runs to the next line break or the end. -/
def userKeyCaptureL (l : List Char) : Option (List Char) :=
  match breakOnSubCI ukPat l with
  | none => none
  | some (_, suf) =>
    some ((((suf.drop 9).dropWhile isJsSpace).takeWhile (fun c => !isCRLF c)))

/-- Model of the top-level Human fallback match: after the first occurrence of
the Human marker anywhere in the string, greedy whitespace (newlines included)
is skipped and the capture runs to the next line break or the end. -/
def humanCaptureL (l : List Char) : Option (List Char) :=
  match breakOnSub humanPat l with
  | none => none
  | some (_, suf) =>
    some ((((suf.drop 6).dropWhile isJsSpace).takeWhile (fun c => !isCRLF c)))

/-- The query and user key obtained from the context block: each capture of
the query and user-key matches inside the trimmed block, trimmed, or the empty
string when absent. -/
def contextoPart (l : List Char) : String × String :=
  match contextoCaptureL l with
  | none => ("", "")
  | some c =>
    let cc := trimL c
    ((match queryCaptureL cc with
      | some q => (⟨trimL q⟩ : String)
      | none => ""),
     (match userKeyCaptureL cc with
      | some k => (⟨trimL k⟩ : String)
      | none => ""))

/-- The trimmed capture of the top-level Human fallback, or empty. -/
def humanPart (l : List Char) : String :=
  match humanCaptureL l with
  | some h => (⟨trimL h⟩ : String)
  | none => ""

/-- The trimmed capture of the system section, or empty. -/
def systemPart (l : List Char) : String :=
  match systemCaptureL l with
  | some c => (⟨trimL c⟩ : String)
  | none => ""

/-- Variant-B (legacy single-string) extraction of the source, yielding the
system prompt, the user query and the captured user key, each trimmed; the
Human fallback supplies the query only when the context block yielded none. -/
def extractFromString (s : String) : String × String × String :=
  let l := s.data
  let qk := contextoPart l
  let q := if qk.1 = "" then humanPart l else qk.1
  (systemPart l, q, qk.2)

/-- typeof v equals the word object (true for null, arrays and objects). -/
def typeofObject : JsValue → Bool
  | .null => true
  | .arr _ => true
  | .obj _ => true
  | _ => false

/-- Strict equality of a possibly-undefined value with a string literal. -/
def isStrVal : Option JsValue → String → Bool
  | some (.str s), t => s = t
  | _, _ => false

/-- Runtime error message when a property of null is read. -/
def nullRoleMsg : String := "Cannot read properties of null (reading role)"

/-- Runtime error message when a property of null is read while filtering. -/
def nullContentMsg : String := "Cannot read properties of null (reading content)"

/-- Runtime error message when trim is called on a non-string content. -/
def trimFnMsg : String := "content.trim is not a function"

/-- The find over the messages array of the source looking for the first
system message with truthy content; reading role of a null element raises. -/
def jsFindSys : List JsValue → Except String (Option JsValue)
  | [] => .ok none
  | m :: rest =>
    if typeofObject m then
      match m with
      | .null => .error nullRoleMsg
      | _ =>
        if isStrVal (jsField m "role") "system" && jsTruthyOpt (jsField m "content") then
          .ok (some m)
        else jsFindSys rest
    else jsFindSys rest

/-- The filter over the messages array keeping elements of object type with
truthy content; reading content of a null element raises. -/
def jsFilterValid : List JsValue → Except String (List JsValue)
  | [] => .ok []
  | m :: rest =>
    if typeofObject m then
      match m with
      | .null => .error nullContentMsg
      | _ =>
        match jsFilterValid rest with
        | .error e => .error e
        | .ok tail =>
          .ok (if jsTruthyOpt (jsField m "content") then m :: tail else tail)
    else jsFilterValid rest

/-- content.trim() as the source calls it: succeeds on strings, raises a type
error on any other content value. -/
def jsTrimVal : JsValue → Except String String
  | .str s => .ok (jsTrim s)
  | _ => .error trimFnMsg

/-- Variant-A (OpenAI message array) extraction of the source: system prompt
from the first system message with truthy content, query from the last element
of object type with truthy content.  Returns the system prompt, the query and
the raw content of the selected last message. -/
def extractArrayVariant (xs : List JsValue) :
    Except String (String × String × Option JsValue) :=
  match jsFindSys xs with
  | .error e => .error e
  | .ok sysOpt =>
    match (match sysOpt with
           | some m => jsTrimVal ((jsField m "content").getD .null)
           | none => .ok "") with
    | .error e => .error e
    | .ok sysPrompt =>
      match jsFilterValid xs with
      | .error e => .error e
      | .ok valid =>
        match valid.getLast? with
        | none => .ok (sysPrompt, "", none)
        | some last =>
          let contentOpt := jsField last "content"
          if jsTruthyOpt contentOpt then
            match jsTrimVal (contentOpt.getD .null) with
            | .error e => .error e
            | .ok q => .ok (sysPrompt, q, contentOpt)
          else .ok (sysPrompt, "", contentOpt)

/-- messages.length with strict equality to the number one: strings and arrays
expose their lengths and plain objects may carry a length field. -/
def jsLengthEqOne : JsValue → Bool
  | .str s => s.length = 1
  | .arr xs => xs.length = 1
  | .obj fs =>
    match jsGet fs "length" with
    | some (.num n) => n = 1
    | _ => false
  | _ => false

/-- Indexing at zero: the first element of an array, the one-character string
of the first code point of a string, or the field named zero of an object. -/
def jsIndex0 : JsValue → Option JsValue
  | .arr xs => xs.head?
  | .str s =>
    match s.data with
    | c :: _ => some (.str (⟨[c]⟩ : String))
    | [] => none
  | .obj fs => jsGet fs "0"
  | _ => none

/-- The string carried by a value when it is a string. -/
def strOf : Option JsValue → Option String
  | some (.str s) => some s
  | _ => none

/-- The non-variant-B continuation of message extraction: the array variant
when messages is an array, otherwise no data at all (query stays empty). -/
def extractMessagesElse (messages : JsValue) :
    Except String (String × String × String × Option JsValue) :=
  match messages with
  | .arr xs =>
    match extractArrayVariant xs with
    | .error e => .error e
    | .ok (sys, q, lastC) => .ok (sys, q, "", lastC)
  | _ => .ok ("", "", "", none)

/-- Message extraction of the source, dispatching on shape: the legacy string
variant when messages has length one and its first element is a string, else
the array variant.  Yields the system prompt, the user query, the captured
user key of the legacy format, and the raw content of the selected last
message (the trimmed query itself for the legacy format). -/
def extractMessages (messages : JsValue) :
    Except String (String × String × String × Option JsValue) :=
  if jsLengthEqOne messages then
    match strOf (jsIndex0 messages) with
    | some ms =>
      let r := extractFromString ms
      .ok (r.1, r.2.1, r.2.2, if r.2.1 = "" then none else some (.str r.2.1))
    | none => extractMessagesElse messages
  else extractMessagesElse messages

/-- The inbound request as the handler sees it: the Authorization header, the
two optional user headers, and the parsed JSON body. -/
structure Req where
  authorization : Option String
  xUserKey : Option String
  xUserId : Option String
  body : JsValue

/-- The data normalization produces for the upstream call and the response. -/
structure NormOk where
  apiToken : String
  chatbotUuid : String
  systemPrompt : String
  userQuery : String
  userKey : JsValue
  lastMessageContent : Option JsValue

/-- The fixed known-model set of the source. -/
def KNOWN_MODELS : List String := ["gpt-3.5-turbo", "gpt-4", "gpt-4o", "simplifique-default"]

/-- KNOWN_MODELS.includes under strict equality: only a string member counts. -/
def knownIncludes : JsValue → Bool
  | .str s => KNOWN_MODELS.contains s
  | _ => false

/-- JavaScript or-chaining: a truthy value wins, otherwise the default. -/
def jsOr (o : Option JsValue) (d : JsValue) : JsValue :=
  match o with
  | some v => if jsTruthy v then v else d
  | none => d

/-- The generated fallback user key of the source, with the clock reading and
the random base-36 fragment taken as parameters of the model. -/
def genKeyStr (now : Nat) (rand : String) : String :=
  "n8n-" ++ toString now ++ "-" ++ rand

/-- The tail of the user-key resolution: request user field, then the
x-user-key header, then the x-user-id header, then the generated key. -/
def resolveFallback (user : Option JsValue) (xk xi : Option String)
    (now : Nat) (rand : String) : JsValue :=
  jsOr user (jsOr (xk.map .str) (jsOr (xi.map .str) (.str (genKeyStr now rand))))

/-- User-key resolution of the source: the captured legacy key when non-empty;
otherwise the model field when truthy and outside the known-model set;
otherwise the first truthy of user field, x-user-key, x-user-id; otherwise the
generated key. -/
def resolveUserKey (captured : String) (model user : Option JsValue)
    (xk xi : Option String) (now : Nat) (rand : String) : JsValue :=
  if captured ≠ "" then .str captured
  else
    match model with
    | some m =>
      if jsTruthy m && !knownIncludes m then m
      else resolveFallback user xk xi now rand
    | none => resolveFallback user xk xi now rand

/-- openaiRequest.messages with the or-default of the source applied. -/
def jsMessagesOf (body : JsValue) : JsValue :=
  match jsField body "messages" with
  | some v => if jsTruthy v then v else .arr []
  | none => .arr []

/-- Request normalization of the source, in the order of the code: header
parse, UUID lexical test (an undefined UUID is coerced to the word undefined),
message extraction, mandatory-query check, user-key resolution.  Errors carry
the message of the exception thrown at that point. -/
def normalize (req : Req) (now : Nat) (rand : String) : Except String NormOk :=
  match authParse req.authorization with
  | .error e => .error e
  | .ok (tok, cuOpt) =>
    if uuidTest (jsUndefStr cuOpt) then
      match extractMessages (jsMessagesOf req.body) with
      | .error e => .error e
      | .ok (sys, q, uk, lastC) =>
        if q = "" then .error noMsgErrMsg
        else .ok {
          apiToken := tok
          chatbotUuid := jsUndefStr cuOpt
          systemPrompt := sys
          userQuery := q
          userKey := resolveUserKey uk (jsField req.body "model") (jsField req.body "user")
            req.xUserKey req.xUserId now rand
          lastMessageContent := lastC }
    else .error uuidErrMsg

/-- Whitespace of the JSON grammar (as JSON.parse accepts it). -/
def isJsonWs (c : Char) : Bool :=
  c = ' ' || c = '\t' || c = '\n' || c = '\r'

/-- ASCII decimal digit. -/
def isDigit (c : Char) : Bool := '0' ≤ c && c ≤ '9'

/-- Skip JSON whitespace. -/
def skipWs (l : List Char) : List Char := l.dropWhile isJsonWs

/-- Exponent part of a JSON number; returns the rest of the input. -/
def numExp (l : List Char) : Option (List Char) :=
  match l with
  | c :: r =>
    if c = 'e' || c = 'E' then
      let r2 := match r with
        | s :: r3 => if s = '+' || s = '-' then r3 else s :: r3
        | [] => []
      match r2 with
      | d :: _ => if isDigit d then some (r2.dropWhile isDigit) else none
      | [] => none
    else some (c :: r)
  | [] => some []

/-- Fraction and exponent parts of a JSON number. -/
def numFrac (l : List Char) : Option (List Char) :=
  match l with
  | c :: r =>
    if c = '.' then
      match r with
      | d :: _ => if isDigit d then numExp (r.dropWhile isDigit) else none
      | [] => none
    else numExp (c :: r)
  | [] => some []

/-- A JSON number (the grammar JSON.parse accepts); returns the rest. -/
def jsonNumber (l : List Char) : Option (List Char) :=
  let l1 := match l with
    | c :: r => if c = '-' then r else c :: r
    | [] => []
  match l1 with
  | c :: r =>
    if c = '0' then numFrac r
    else if '1' ≤ c && c ≤ '9' then numFrac (r.dropWhile isDigit)
    else none
  | [] => none

/-- Rest of a JSON string after its opening quote: plain characters above the
control range, the simple escapes and the four-hex-digit unicode escape. -/
def jsonStringRest : Nat → List Char → Option (List Char)
  | 0, _ => none
  | _ + 1, [] => none
  | fuel + 1, c :: r =>
    if c = '\"' then some r
    else if c = '\\' then
      match r with
      | e :: r2 =>
        if e = '\"' || e = '\\' || e = '/' || e = 'b' || e = 'f' ||
           e = 'n' || e = 'r' || e = 't' then
          jsonStringRest fuel r2
        else if e = 'u' then
          match r2 with
          | h1 :: h2 :: h3 :: h4 :: r3 =>
            if isHexChar h1 && isHexChar h2 && isHexChar h3 && isHexChar h4 then
              jsonStringRest fuel r3
            else none
          | _ => none
        else none
      | [] => none
    else if c.toNat < 32 then none
    else jsonStringRest fuel r

mutual

/-- A JSON value (no leading whitespace); returns the rest of the input. -/
def jsonValue : Nat → List Char → Option (List Char)
  | 0, _ => none
  | _ + 1, [] => none
  | fuel + 1, c :: r =>
    if c = '\"' then jsonStringRest fuel r
    else if c = lbraceChar then
      match skipWs r with
      | d :: r2 => if d = rbraceChar then some r2 else jsonObjMembers fuel (d :: r2)
      | [] => none
    else if c = '[' then
      match skipWs r with
      | d :: r2 => if d = ']' then some r2 else jsonArrElems fuel (d :: r2)
      | [] => none
    else if csPrefix "true".data (c :: r) then some ((c :: r).drop 4)
    else if csPrefix "false".data (c :: r) then some ((c :: r).drop 5)
    else if csPrefix "null".data (c :: r) then some ((c :: r).drop 4)
    else jsonNumber (c :: r)

/-- Members of a JSON object after the opening brace and whitespace. -/
def jsonObjMembers : Nat → List Char → Option (List Char)
  | 0, _ => none
  | _ + 1, [] => none
  | fuel + 1, c :: r =>
    if c = '\"' then
      match jsonStringRest fuel r with
      | some r2 =>
        match skipWs r2 with
        | k :: r3 =>
          if k = ':' then
            match jsonValue fuel (skipWs r3) with
            | some r4 =>
              match skipWs r4 with
              | e :: r5 =>
                if e = ',' then jsonObjMembers fuel (skipWs r5)
                else if e = rbraceChar then some r5
                else none
              | [] => none
            | none => none
          else none
        | [] => none
      | none => none
    else none

/-- Elements of a JSON array after the opening bracket and whitespace. -/
def jsonArrElems : Nat → List Char → Option (List Char)
  | 0, _ => none
  | fuel + 1, l =>
    match jsonValue fuel l with
    | some r =>
      match skipWs r with
      | e :: r2 =>
        if e = ',' then jsonArrElems fuel (skipWs r2)
        else if e = ']' then some r2
        else none
      | [] => none
    | none => none

end

/-- JSON.parse succeeds on the string: one value surrounded by whitespace. -/
def jsonOk (s : String) : Bool :=
  match jsonValue (3 * s.data.length + 8) (skipWs s.data) with
  | some rest => (skipWs rest).isEmpty
  | none => false

/-- The literal FUNCTION_CALL marker of the extraction pattern. -/
def fcPat : List Char := "[FUNCTION_CALL]".data

/-- Word characters of the function-name token class. -/
def isWordChar (c : Char) : Bool :=
  ('a' ≤ c && c ≤ 'z') || ('A' ≤ c && c ≤ 'Z') || ('0' ≤ c && c ≤ '9') || c = '_'

/-- Attempt of the function-call pattern at one line start: the literal marker,
greedy whitespace, a maximal non-empty word-character run as the name, greedy
whitespace, then at least one character of arguments running to the end.  The
engine backtracks when nothing remains: first the trailing whitespace yields
its last character to the argument group, then the name run yields its last
character. -/
def funcMatchAt (l : List Char) : Option (List Char × List Char) :=
  if csPrefix fcPat l then
    let t1 := (l.drop 15).dropWhile isJsSpace
    let name := t1.takeWhile isWordChar
    if name.isEmpty then none
    else
      let rest := t1.drop name.length
      let ws2 := rest.takeWhile isJsSpace
      let rest2 := rest.drop ws2.length
      if !rest2.isEmpty then some (name, rest2)
      else
        match ws2.getLast? with
        | some w => some (name, [w])
        | none =>
          match name.getLast? with
          | some nl => if name.dropLast.isEmpty then none else some (name.dropLast, [nl])
          | none => none
  else none

/-- Scan of the multiline-anchored pattern: the attempt is made at the start of
the string and after every line terminator, leftmost success first. -/
def funcScanAux : Bool → List Char → Option (List Char × List Char)
  | atStart, [] => if atStart then funcMatchAt [] else none
  | atStart, c :: rest =>
    match (if atStart then funcMatchAt (c :: rest) else none) with
    | some r => some r
    | none => funcScanAux (isLineTermChar c) rest

/-- Leftmost match of the function-call pattern over the whole answer. -/
def funcScan (l : List Char) : Option (List Char × List Char) :=
  funcScanAux true l

/-- One tool-call record of the outgoing message. -/
structure ToolCall where
  id : String
  ctype : String
  fname : String
  farguments : String

/-- Result of the function-call extraction: the outgoing content and the
optional tool-call list (null in the source when no call was extracted). -/
structure FCResult where
  content : String
  toolCalls : Option (List ToolCall)

/-- Leading-brace test on the trimmed arguments. -/
def startsWithLbrace (s : String) : Bool :=
  match s.data with
  | c :: _ => c = lbraceChar
  | [] => false

/-- Trailing-brace test on the trimmed arguments. -/
def endsWithRbrace (s : String) : Bool :=
  match s.data.getLast? with
  | some c => c = rbraceChar
  | none => false

/-- parseFunctionCall of the source: a falsy answer yields empty content and no
calls; an answer without a pattern match is returned as plain content; on a
match the trimmed arguments are validated as JSON only when they start and end
with braces, a failed validation returning the whole answer as plain content,
and otherwise a single tool-call record with fixed id tool1 is emitted with
empty content. -/
def parseFunctionCall (answer : String) : FCResult :=
  if answer = "" then ⟨"", none⟩
  else
    match funcScan answer.data with
    | none => ⟨answer, none⟩
    | some (nameL, argsL) =>
      let args := jsTrim ⟨argsL⟩
      if startsWithLbrace args && endsWithRbrace args && !jsonOk args then
        ⟨answer, none⟩
      else ⟨"", some [⟨"tool1", "function", ⟨nameL⟩, args⟩]⟩

/-- The fixed apology answer substituted when the upstream call fails. -/
def apologyStr : String := "Desculpe, não foi possível obter uma resposta do chatbot agora."

/-- The usage block of the outgoing completion. -/
structure Usage where
  prompt_tokens : Nat
  completion_tokens : Nat
  total_tokens : Nat

/-- The outgoing response of the handler, with the fields the claims inspect
and the flag recording whether the upstream call was issued. -/
structure HResult where
  status : Nat
  model : JsValue
  fingerprint : Option String
  content : String
  toolCalls : Option (List ToolCall)
  usage : Usage
  chatId : Option JsValue
  calledUpstream : Bool

/-- Math.ceil of a natural length divided by four. -/
def ceil4 (n : Nat) : Nat := (n + 3) / 4

/-- The length a value exposes for the token estimate (strings and arrays);
any other value makes the arithmetic collapse to zero through NaN. -/
def jsLenForTokens : JsValue → Option Nat
  | .str s => some s.length
  | .arr xs => some xs.length
  | _ => none

/-- The prompt-token estimate of the source: the length of the raw content of
the selected last message when truthy, else the length of the user query. -/
def promptTokensOf (lastC : Option JsValue) (q : String) : Nat :=
  match lastC with
  | some v =>
    if jsTruthy v then
      match jsLenForTokens v with
      | some n => ceil4 n
      | none => 0
    else ceil4 q.length
  | none => ceil4 q.length

/-- The model echoed into the response, or the fixed default when falsy. -/
def modelEcho (body : JsValue) : JsValue :=
  match jsField body "model" with
  | some v => if jsTruthy v then v else .str "gpt-3.5-turbo"
  | none => .str "gpt-3.5-turbo"

/-- The completion-shaped 500 response the outer catch of the source emits. -/
def errorResult (body : JsValue) (msg : String) (called : Bool) : HResult :=
  { status := 500
    model := modelEcho body
    fingerprint := none
    content := "Desculpe, ocorreu um erro: " ++ (if msg = "" then "erro inesperado." else msg)
    toolCalls := none
    usage := ⟨0, 0, 0⟩
    chatId := none
    calledUpstream := called }

/-- The synthetic upstream body substituted when the upstream call fails. -/
def synthData : JsValue :=
  .obj [("data", .obj [("answer", .str apologyStr), ("chat_id", .null)])]

/-- Optional chaining data.answer over the upstream body. -/
def chainDataAnswer (d : JsValue) : Option JsValue :=
  match jsField d "data" with
  | some dd => jsField dd "answer"
  | none => none

/-- The guarded chat-id read of the metadata block: the chain of truthiness
guards makes any falsy link collapse to null. -/
def chatIdOf (d : JsValue) : Option JsValue :=
  if jsTruthy d then
    match jsField d "data" with
    | some dd =>
      if jsTruthy dd then
        match jsField dd "chat_id" with
        | some c => if jsTruthy c then some c else none
        | none => none
      else none
    | none => none
  else none

/-- Runtime error message when match is called on a non-string answer. -/
def matchFnMsg : String := "answer.match is not a function"

/-- The or-empty-string default applied to the chained answer before the
function-call parse. -/
def answerValOf (o : Option JsValue) : JsValue :=
  match o with
  | some v => if jsTruthy v then v else .str ""
  | none => .str ""

/-- The chat-completions handler of the source over one request: normalize,
then either the completion-shaped 500 of the outer catch, or the upstream
exchange (a none upstream outcome models a timeout, network failure or non-2xx
status and is absorbed into the synthetic body), function-call extraction,
token estimation and response assembly. -/
def handle (req : Req) (now : Nat) (rand : String) (upstream : Option JsValue) : HResult :=
  match normalize req now rand with
  | .error msg => errorResult req.body msg false
  | .ok n =>
    let data := match upstream with
      | some d => d
      | none => synthData
    match answerValOf (chainDataAnswer data) with
    | .str a =>
      let fc := parseFunctionCall a
      let pt := promptTokensOf n.lastMessageContent n.userQuery
      let ct := if fc.content ≠ "" then ceil4 fc.content.length else ceil4 a.length
      { status := 200
        model := modelEcho req.body
        fingerprint := some ("simplifique_" ++ n.chatbotUuid)
        content := fc.content
        toolCalls := fc.toolCalls
        usage := ⟨pt, ct, pt + ct⟩
        chatId := chatIdOf data
        calledUpstream := true }
    | _ => errorResult req.body matchFnMsg true

/-- JSON rendering of the usage block. -/
def usageToJs (u : Usage) : JsValue :=
  .obj [("prompt_tokens", .num (Int.ofNat u.prompt_tokens)),
        ("completion_tokens", .num (Int.ofNat u.completion_tokens)),
        ("total_tokens", .num (Int.ofNat u.total_tokens))]

/-- JSON rendering of one tool-call record. -/
def toolCallToJs (t : ToolCall) : JsValue :=
  .obj [("id", .str t.id), ("type", .str t.ctype),
        ("function", .obj [("name", .str t.fname), ("arguments", .str t.farguments)])]

/-- JSON rendering of the tool-call list (null when absent). -/
def toolCallsToJs : Option (List ToolCall) → JsValue
  | none => .null
  | some ts => .arr (ts.map toolCallToJs)

/-- JSON rendering of the optional chat id (null when absent). -/
def chatIdToJs : Option JsValue → JsValue
  | none => .null
  | some v => v

/-- The response body the handler serializes: the success body carries the
system fingerprint and a null logprobs field, the outer-catch body does not;
the random completion id and the clock reading are parameters. -/
def HResult.toJs (r : HResult) (uuid : String) (created : Int) : JsValue :=
  .obj ([("id", .str ("chatcmpl-" ++ uuid)),
         ("object", .str "chat.completion"),
         ("created", .num created),
         ("model", r.model)] ++
        (match r.fingerprint with
         | some f => [("system_fingerprint", .str f)]
         | none => []) ++
        [("choices", .arr [.obj
           ([("index", .num 0),
             ("message", .obj
               [("role", .str "assistant"),
                ("content", .str r.content),
                ("tool_calls", toolCallsToJs r.toolCalls)])] ++
            (match r.fingerprint with
             | some _ => [("logprobs", .null)]
             | none => []) ++
            [("finish_reason", .str "stop")])]),
         ("usage", usageToJs r.usage),
         ("metadata", .obj
           [("simplifique_chat_id", chatIdToJs r.chatId),
            ("service", .str "simplifique.ai")])])

/-- A value is a string. -/
def isStrShape : Option JsValue → Bool
  | some (.str _) => true
  | _ => false

/-- A value is a number. -/
def isNumShape : Option JsValue → Bool
  | some (.num _) => true
  | _ => false

/-- The OpenAI-completion shape a caller of the adapter parses
unconditionally: an object with a string id, the chat.completion object tag, a
numeric creation time, a model field, a non-empty choices array whose first
element carries an assistant message with string content and a finish reason,
and a usage block with the three numeric token counts. -/
def isCompletionShaped (v : JsValue) : Bool :=
  match v with
  | .obj fs =>
    isStrShape (jsGet fs "id") &&
    isStrVal (jsGet fs "object") "chat.completion" &&
    isNumShape (jsGet fs "created") &&
    (jsGet fs "model").isSome &&
    (match jsGet fs "choices" with
     | some (.arr (.obj cfs :: _)) =>
       (match jsGet cfs "message" with
        | some (.obj mfs) =>
          isStrVal (jsGet mfs "role") "assistant" && isStrShape (jsGet mfs "content")
        | _ => false) &&
       isStrShape (jsGet cfs "finish_reason")
     | _ => false) &&
    (match jsGet fs "usage" with
     | some (.obj ufs) =>
       isNumShape (jsGet ufs "prompt_tokens") &&
       isNumShape (jsGet ufs "completion_tokens") &&
       isNumShape (jsGet ufs "total_tokens")
     | _ => false)
  | _ => false

/-- The body is of a shape the JSON body parser of the HTTP layer delivers. -/
def isObjOrArr : JsValue → Bool
  | .obj _ => true
  | .arr _ => true
  | _ => false

/-- Classification of the handler error messages into the error taxonomy the
structured-envelope iterations of the same source file attach to them: the
header failure is an authentication error, the UUID and missing-query failures
are invalid-request errors, anything else is a generic api error. -/
def errClassOfMsg (msg : String) : String :=
  if msg = authHeaderMsg then "authentication_error"
  else if msg = uuidErrMsg || msg = noMsgErrMsg then "invalid_request_error"
  else "api_error"

/-! Concrete fixtures used by the theorems below. -/

/-- A lexically valid chatbot UUID. -/
def uuidEx : String := "aaaaaaaa-bbbb-cccc-dddd-eeeeeeeeeeee"

/-- A well-formed Authorization header. -/
def goodAuthHeader : Option String := some "Bearer tok:aaaaaaaa-bbbb-cccc-dddd-eeeeeeeeeeee"

/-- A user message object of the OpenAI array format. -/
def userMsg (s : String) : JsValue := .obj [("role", .str "user"), ("content", .str s)]

/-- A request with the well-formed header and the given messages and extras. -/
def reqOf (msgs : JsValue) (extra : List (String × JsValue)) : Req :=
  ⟨goodAuthHeader, none, none, .obj (("messages", msgs) :: extra)⟩

/-- A well-formed upstream response body with the given answer and chat id. -/
def upstreamOf (a : String) (cid : JsValue) : JsValue :=
  .obj [("data", .obj [("answer", .str a), ("chat_id", cid)])]

/-- The JSON argument text of the worked function-call example. -/
def jsonArgsEx : String := "\x7b\"city\":\"Paris\"\x7d"

/-- The worked function-call answer of the spec. -/
def fcAnswer : String := "[FUNCTION_CALL]\nget_weather\n" ++ jsonArgsEx

/-- A valid array-format request whose user content carries leading blanks. -/
def c1req : Req := reqOf (.arr [userMsg "   Hi"]) []

/-- The normalization result of that request. -/
def c1norm : NormOk := ⟨"tok", uuidEx, "", "Hi", .str "n8n-0-rr", some (.str "   Hi")⟩

/-- A function-call answer whose brace-delimited arguments fail JSON parsing. -/
def badFcAnswer : String := "[FUNCTION_CALL]\nf\n\x7bbad\x7d"

/-- The request parsed an Authorization pair whose chatbot UUID fails the
lexical test. -/
def uuidRejected (req : Req) : Prop :=
  ∃ tok cu, authParse req.authorization = .ok (tok, cu) ∧ uuidTest (jsUndefStr cu) = false

/-- Message extraction of the request completed with an empty user query. -/
def queryEmptyExtract (req : Req) : Prop :=
  ∃ sys uk lastC, extractMessages (jsMessagesOf req.body) = .ok (sys, "", uk, lastC)

/-- A request whose header remainder carries a non-UUID second segment. -/
def c8req : Req := ⟨some "Bearer tok:xyz", none, none, .obj [("messages", .arr [userMsg "Hi"])]⟩

/-- A request whose header remainder carries two colons: a valid UUID segment
followed by extra text. -/
def c6req : Req := ⟨some "Bearer tok:aaaaaaaa-bbbb-cccc-dddd-eeeeeeeeeeee:extra",
  none, none, .obj [("messages", .arr [userMsg "Hello"])]⟩

/-- A request whose header remainder holds no colon at all. -/
def c7req : Req := ⟨some "Bearer tokenonly", none, none,
  .obj [("messages", .arr [userMsg "Hi"])]⟩

/-- A legacy-string request with an empty marker line and a later Human line. -/
def c10req : Req := reqOf (.arr [.str "Contexto Extra Human:\nHuman: hello"]) []

/-- Normalization reached a result rather than an error. -/
def exceptIsOk : Except String NormOk → Bool
  | .ok _ => true
  | .error _ => false

/-- The empty-string answer is the only falsy one; the pattern never matches
the empty input, so the scan on a matched answer forces it non-empty. -/
theorem funcScan_empty : funcScan ([] : List Char) = none := rfl

/-- On a pattern match with well-formed or non-brace arguments, the extraction
emits the single fixed tool-call record with empty content. -/
theorem parseFunctionCall_match_good (answer : String) (nameL argsL : List Char)
    (hscan : funcScan answer.data = some (nameL, argsL))
    (hb : (startsWithLbrace (jsTrim ⟨argsL⟩) && endsWithRbrace (jsTrim ⟨argsL⟩) &&
      !jsonOk (jsTrim ⟨argsL⟩)) = false) :
    parseFunctionCall answer =
      ⟨"", some [⟨"tool1", "function", ⟨nameL⟩, jsTrim ⟨argsL⟩⟩]⟩ := by
  have hne : answer ≠ "" := by
    intro he
    rw [he] at hscan
    exact Option.noConfusion (funcScan_empty ▸ hscan)
  unfold parseFunctionCall
  rw [if_neg hne, hscan]
  show (if (startsWithLbrace (jsTrim ⟨argsL⟩) && endsWithRbrace (jsTrim ⟨argsL⟩) &&
      !jsonOk (jsTrim ⟨argsL⟩)) = true then (⟨answer, none⟩ : FCResult)
    else ⟨"", some [⟨"tool1", "function", ⟨nameL⟩, jsTrim ⟨argsL⟩⟩]⟩) = _
  rw [hb]
  rfl

/-- On a pattern match whose trimmed arguments are brace-delimited but fail
JSON validation, the whole original answer is returned as plain content. -/
theorem parseFunctionCall_match_bad (answer : String) (nameL argsL : List Char)
    (hscan : funcScan answer.data = some (nameL, argsL))
    (hb : (startsWithLbrace (jsTrim ⟨argsL⟩) && endsWithRbrace (jsTrim ⟨argsL⟩) &&
      !jsonOk (jsTrim ⟨argsL⟩)) = true) :
    parseFunctionCall answer = ⟨answer, none⟩ := by
  have hne : answer ≠ "" := by
    intro he
    rw [he] at hscan
    exact Option.noConfusion (funcScan_empty ▸ hscan)
  unfold parseFunctionCall
  rw [if_neg hne, hscan]
  show (if (startsWithLbrace (jsTrim ⟨argsL⟩) && endsWithRbrace (jsTrim ⟨argsL⟩) &&
      !jsonOk (jsTrim ⟨argsL⟩)) = true then (⟨answer, none⟩ : FCResult)
    else ⟨"", some [⟨"tool1", "function", ⟨nameL⟩, jsTrim ⟨argsL⟩⟩]⟩) = _
  rw [hb]
  rfl

/-- Without a pattern match the answer is returned as plain content. -/
theorem parseFunctionCall_nomatch (answer : String)
    (hscan : funcScan answer.data = none) :
    parseFunctionCall answer = ⟨answer, none⟩ := by
  by_cases hne : answer = ""
  · subst hne; rfl
  · unfold parseFunctionCall
    rw [if_neg hne, hscan]

/-- The content of a parsed function call is either empty (a call was
extracted) or the whole original answer. -/
theorem parseFunctionCall_content (a : String) :
    (parseFunctionCall a).content = "" ∨ (parseFunctionCall a).content = a := by
  by_cases h : a = ""
  · subst h; left; rfl
  · cases hscan : funcScan a.data with
    | none => right; rw [parseFunctionCall_nomatch a hscan]
    | some p =>
      obtain ⟨nameL, argsL⟩ := p
      by_cases hb : (startsWithLbrace (jsTrim ⟨argsL⟩) && endsWithRbrace (jsTrim ⟨argsL⟩) &&
          !jsonOk (jsTrim ⟨argsL⟩)) = true
      · right; rw [parseFunctionCall_match_bad a nameL argsL hscan hb]
      · left
        rw [parseFunctionCall_match_good a nameL argsL hscan (Bool.not_eq_true _ ▸ hb)]

/-- The or-empty default leaves a string answer unchanged. -/
theorem answerValOf_str (a : String) : answerValOf (some (.str a)) = .str a := by
  by_cases h : a = ""
  · subst h; rfl
  · simp [answerValOf, jsTruthy, h]

/-- Reduction of the handler on a successful normalization and a well-formed
upstream body. -/
theorem handle_ok_str (req : Req) (now : Nat) (rand : String) (n : NormOk)
    (h : normalize req now rand = .ok n) (a : String) (cid : JsValue) :
    handle req now rand (some (upstreamOf a cid)) =
      { status := 200
        model := modelEcho req.body
        fingerprint := some ("simplifique_" ++ n.chatbotUuid)
        content := (parseFunctionCall a).content
        toolCalls := (parseFunctionCall a).toolCalls
        usage := ⟨promptTokensOf n.lastMessageContent n.userQuery,
          (if (parseFunctionCall a).content ≠ "" then
            ceil4 (parseFunctionCall a).content.length else ceil4 a.length),
          promptTokensOf n.lastMessageContent n.userQuery +
          (if (parseFunctionCall a).content ≠ "" then
            ceil4 (parseFunctionCall a).content.length else ceil4 a.length)⟩
        chatId := chatIdOf (upstreamOf a cid)
        calledUpstream := true } := by
  simp only [handle, h]
  rw [show chainDataAnswer (upstreamOf a cid) = some (JsValue.str a) from rfl, answerValOf_str]

/-- C5: the worked legacy-string input normalizes to system prompt Be
helpful., query equal to the weather question, and user key u42, each capture
trimmed of surrounding whitespace. -/
theorem claim5_legacy_parse :
    normalize (reqOf (.arr [.str
        "System: Be helpful.\nContexto Extra Human:\nQuery: What\x27s the weather?\nuser_key: u42"]) [])
        3 "abc" =
      .ok ⟨"tok", uuidEx, "Be helpful.", "What\x27s the weather?", .str "u42",
        some (.str "What\x27s the weather?")⟩ := rfl

/-- C1 (amended): for every valid request and well-formed upstream answer,
completion tokens are the ceiling of a quarter of the raw answer length even
when a function call was extracted (the empty extracted content is falsy, so
the estimate falls back to the raw answer); prompt tokens are the ceiling of a
quarter of the raw content length of the selected last message (the trimmed
query itself in the legacy variant); total is their sum. -/
theorem claim1_tokens :
    ∀ (req : Req) (now : Nat) (rand : String) (n : NormOk) (a : String) (cid : JsValue),
    normalize req now rand = .ok n →
    ((handle req now rand (some (upstreamOf a cid))).usage.completion_tokens = ceil4 a.length ∧
     (handle req now rand (some (upstreamOf a cid))).usage.prompt_tokens =
       promptTokensOf n.lastMessageContent n.userQuery ∧
     (handle req now rand (some (upstreamOf a cid))).usage.total_tokens =
       promptTokensOf n.lastMessageContent n.userQuery + ceil4 a.length ∧
     (∀ c : String, n.lastMessageContent = some (.str c) → c ≠ "" →
       (handle req now rand (some (upstreamOf a cid))).usage.prompt_tokens = ceil4 c.length)) := by
  intro req now rand n a cid h
  rw [handle_ok_str req now rand n h a cid]
  have hct : (if (parseFunctionCall a).content ≠ "" then
      ceil4 (parseFunctionCall a).content.length else ceil4 a.length) = ceil4 a.length := by
    rcases parseFunctionCall_content a with hc | hc
    · simp [hc]
    · rw [hc]
      by_cases hz : a = ""
      · simp [hz]
      · simp [hz]
  refine ⟨hct, rfl, by rw [hct], ?_⟩
  intro c hc hcne
  show promptTokensOf n.lastMessageContent n.userQuery = ceil4 c.length
  rw [hc]
  simp [promptTokensOf, jsTruthy, jsLenForTokens, hcne]

/-- C1 counterexample: for the valid request whose user content carries three
leading blanks (query Hi after trimming) and the worked function-call answer,
the handler extracts the tool call yet reports eleven completion tokens (the
raw answer estimate), not the zero of the claim, and two prompt tokens (the
untrimmed content estimate), not the value computed from the query text. -/
theorem claim1_counterexample :
    normalize c1req 0 "rr" = .ok c1norm ∧
    c1norm.userQuery = "Hi" ∧
    (handle c1req 0 "rr" (some (upstreamOf fcAnswer .null))).toolCalls =
      some [⟨"tool1", "function", "get_weather", jsonArgsEx⟩] ∧
    (handle c1req 0 "rr" (some (upstreamOf fcAnswer .null))).content = "" ∧
    (handle c1req 0 "rr" (some (upstreamOf fcAnswer .null))).usage.completion_tokens = 11 ∧
    ((11 : Nat) == 0) = false ∧
    (handle c1req 0 "rr" (some (upstreamOf fcAnswer .null))).usage.prompt_tokens = 2 ∧
    ((2 : Nat) == ceil4 ("Hi".length)) = false :=
  ⟨rfl, rfl, rfl, rfl, rfl, rfl, rfl, rfl⟩

/-- C1 witness: the amended token accounting evaluated on a concrete valid
request and a concrete answer. -/
theorem claim1_witness :
    (handle c1req 0 "rr" (some (upstreamOf apologyStr .null))).usage.completion_tokens =
      ceil4 apologyStr.length ∧
    (handle c1req 0 "rr" (some (upstreamOf apologyStr .null))).usage.prompt_tokens =
      ceil4 ("   Hi".length) := by
  have h := claim1_tokens c1req 0 "rr" c1norm apologyStr .null rfl
  exact ⟨h.1, h.2.2.2 "   Hi" rfl (by decide)⟩

/-- C4: in the resilient handler, every valid request whose single upstream
call fails is absorbed: the caller receives a 200 completion whose content is
the fixed apology string, whose chat id is null, and whose completion tokens
are estimated from the apology string itself (sixteen for its sixty-three
characters). -/
theorem claim4_resilient :
    ∀ (req : Req) (now : Nat) (rand : String) (n : NormOk),
    normalize req now rand = .ok n →
    ((handle req now rand none).status = 200 ∧
     (handle req now rand none).content = apologyStr ∧
     (handle req now rand none).toolCalls = none ∧
     (handle req now rand none).chatId = none ∧
     (handle req now rand none).usage.completion_tokens = ceil4 apologyStr.length ∧
     ceil4 apologyStr.length = 16) := by
  intro req now rand n h
  simp only [handle, h]
  exact ⟨rfl, rfl, rfl, rfl, rfl, rfl⟩

/-- C4 witness: the absorbed-failure behaviour evaluated on a concrete valid
request. -/
theorem claim4_witness :
    (handle c1req 0 "rr" none).status = 200 ∧
    (handle c1req 0 "rr" none).content = apologyStr ∧
    (handle c1req 0 "rr" none).toolCalls = none ∧
    (handle c1req 0 "rr" none).chatId = none ∧
    (handle c1req 0 "rr" none).usage.completion_tokens = ceil4 apologyStr.length ∧
    ceil4 apologyStr.length = 16 :=
  claim4_resilient c1req 0 "rr" c1norm rfl

/-- A truthy value wins the or-chain. -/
theorem jsOr_truthy (v d : JsValue) (h : jsTruthy v = true) : jsOr (some v) d = v := by
  simp [jsOr, h]

/-- A falsy or absent value loses the or-chain. -/
theorem jsOr_falsy (o : Option JsValue) (d : JsValue) (h : jsTruthyOpt o = false) :
    jsOr o d = d := by
  cases o with
  | none => rfl
  | some v => simp [jsOr, show jsTruthy v = false from h]

/-- An absent or empty header string loses the or-chain. -/
theorem jsOr_strOpt_falsy (o : Option String) (d : JsValue)
    (h : ∀ s, o = some s → s = "") : jsOr (o.map .str) d = d := by
  cases o with
  | none => rfl
  | some s =>
    rw [h s rfl]
    simp [jsOr, jsTruthy]

/-- When the model gate of the resolution does not fire, resolution continues
with the fallback chain. -/
theorem resolveUserKey_nogate (model : Option JsValue)
    (hm : ∀ m, model = some m → jsTruthy m = false ∨ knownIncludes m = true)
    (user : Option JsValue) (xk xi : Option String) (now : Nat) (rand : String) :
    resolveUserKey "" model user xk xi now rand = resolveFallback user xk xi now rand := by
  unfold resolveUserKey
  rw [if_neg (by simp)]
  cases model with
  | none => rfl
  | some m =>
    rcases hm m rfl with h | h
    · simp [h]
    · simp [h]

/-- C3: the resolved user key is the first non-empty value in the exact order:
the captured legacy key, the model field when truthy and outside the
known-model set, the request user field, the x-user-key header, the x-user-id
header, the generated n8n key built from the clock and the random fragment;
and in particular the model custom-agent-7 with no other signal resolves the
full normalization to that very string as user key. -/
theorem claim3_userkey :
    (∀ (captured : String) (model user : Option JsValue) (xk xi : Option String)
       (now : Nat) (rand : String), captured ≠ "" →
       resolveUserKey captured model user xk xi now rand = .str captured) ∧
    (∀ (m : JsValue) (user : Option JsValue) (xk xi : Option String)
       (now : Nat) (rand : String), jsTruthy m = true → knownIncludes m = false →
       resolveUserKey "" (some m) user xk xi now rand = m) ∧
    (∀ (model : Option JsValue) (u : JsValue) (xk xi : Option String)
       (now : Nat) (rand : String),
       (∀ m, model = some m → jsTruthy m = false ∨ knownIncludes m = true) →
       jsTruthy u = true →
       resolveUserKey "" model (some u) xk xi now rand = u) ∧
    (∀ (model user : Option JsValue) (k : String) (xi : Option String)
       (now : Nat) (rand : String),
       (∀ m, model = some m → jsTruthy m = false ∨ knownIncludes m = true) →
       jsTruthyOpt user = false → k ≠ "" →
       resolveUserKey "" model user (some k) xi now rand = .str k) ∧
    (∀ (model user : Option JsValue) (xk : Option String) (i : String)
       (now : Nat) (rand : String),
       (∀ m, model = some m → jsTruthy m = false ∨ knownIncludes m = true) →
       jsTruthyOpt user = false → (∀ s, xk = some s → s = "") → i ≠ "" →
       resolveUserKey "" model user xk (some i) now rand = .str i) ∧
    (∀ (model user : Option JsValue) (xk xi : Option String) (now : Nat) (rand : String),
       (∀ m, model = some m → jsTruthy m = false ∨ knownIncludes m = true) →
       jsTruthyOpt user = false → (∀ s, xk = some s → s = "") → (∀ s, xi = some s → s = "") →
       resolveUserKey "" model user xk xi now rand = .str (genKeyStr now rand)) ∧
    normalize (reqOf (.arr [userMsg "Hello"]) [("model", .str "custom-agent-7")]) 7 "zzz" =
      .ok ⟨"tok", uuidEx, "", "Hello", .str "custom-agent-7", some (.str "Hello")⟩ := by
  refine ⟨?_, ?_, ?_, ?_, ?_, ?_, rfl⟩
  · intro captured model user xk xi now rand h
    unfold resolveUserKey
    rw [if_pos h]
  · intro m user xk xi now rand h1 h2
    unfold resolveUserKey
    rw [if_neg (by simp)]
    simp [h1, h2]
  · intro model u xk xi now rand hm hu
    rw [resolveUserKey_nogate model hm]
    unfold resolveFallback
    exact jsOr_truthy u _ hu
  · intro model user k xi now rand hm hu hk
    rw [resolveUserKey_nogate model hm]
    unfold resolveFallback
    rw [jsOr_falsy user _ hu]
    exact jsOr_truthy _ _ (by simp [jsTruthy, hk])
  · intro model user xk i now rand hm hu hxk hi
    rw [resolveUserKey_nogate model hm]
    unfold resolveFallback
    rw [jsOr_falsy user _ hu, jsOr_strOpt_falsy xk _ hxk]
    exact jsOr_truthy _ _ (by simp [jsTruthy, hi])
  · intro model user xk xi now rand hm hu hxk hxi
    rw [resolveUserKey_nogate model hm]
    unfold resolveFallback
    rw [jsOr_falsy user _ hu, jsOr_strOpt_falsy xk _ hxk, jsOr_strOpt_falsy xi _ hxi]

/-- C3 witness: the precedence conjuncts evaluated at concrete inputs: an
unknown model tunnels through as the key, a known model falls back to the
generated key, and a captured legacy key beats the model. -/
theorem claim3_witness :
    resolveUserKey "" (some (.str "custom-agent-7")) none none none 7 "zzz" =
      .str "custom-agent-7" ∧
    resolveUserKey "" (some (.str "gpt-4")) none none none 7 "zzz" =
      .str (genKeyStr 7 "zzz") ∧
    resolveUserKey "u42" (some (.str "custom-agent-7")) none none none 7 "zzz" =
      .str "u42" := by
  refine ⟨claim3_userkey.2.1 _ none none none 7 "zzz" (by decide) (by decide), ?_,
    claim3_userkey.1 "u42" _ none none none 7 "zzz" (by decide)⟩
  exact claim3_userkey.2.2.2.2.2.1 (some (.str "gpt-4")) none none none 7 "zzz"
    (fun m hm => by cases hm; right; decide) rfl
    (fun s h => Option.noConfusion h) (fun s h => Option.noConfusion h)

/-- C2: for every upstream answer matching the extraction pattern, the
outgoing content is empty and exactly one tool-call record is emitted with id
tool1, type function, the captured name and the captured (trimmed) argument
text verbatim; brace-delimited arguments failing JSON validation return the
whole original answer with no call; a non-matching answer is returned as plain
content; and the worked example yields the get_weather call with its JSON
arguments. -/
theorem claim2_extraction :
    (∀ (answer : String) (nameL argsL : List Char),
       funcScan answer.data = some (nameL, argsL) →
       ((startsWithLbrace (jsTrim ⟨argsL⟩) && endsWithRbrace (jsTrim ⟨argsL⟩) &&
          !jsonOk (jsTrim ⟨argsL⟩)) = false →
         parseFunctionCall answer =
           ⟨"", some [⟨"tool1", "function", ⟨nameL⟩, jsTrim ⟨argsL⟩⟩]⟩) ∧
       ((startsWithLbrace (jsTrim ⟨argsL⟩) && endsWithRbrace (jsTrim ⟨argsL⟩) &&
          !jsonOk (jsTrim ⟨argsL⟩)) = true →
         parseFunctionCall answer = ⟨answer, none⟩)) ∧
    (∀ answer : String, funcScan answer.data = none →
       parseFunctionCall answer = ⟨answer, none⟩) ∧
    parseFunctionCall fcAnswer =
      ⟨"", some [⟨"tool1", "function", "get_weather", jsonArgsEx⟩]⟩ := by
  refine ⟨?_, parseFunctionCall_nomatch, rfl⟩
  intro answer nameL argsL hscan
  exact ⟨parseFunctionCall_match_good answer nameL argsL hscan,
    parseFunctionCall_match_bad answer nameL argsL hscan⟩

/-- C2 witness: the three extraction branches evaluated at concrete answers. -/
theorem claim2_witness :
    parseFunctionCall "plain answer" = ⟨"plain answer", none⟩ ∧
    parseFunctionCall badFcAnswer = ⟨badFcAnswer, none⟩ ∧
    parseFunctionCall fcAnswer =
      ⟨"", some [⟨"tool1", "function", "get_weather", jsTrim ⟨jsonArgsEx.data⟩⟩]⟩ := by
  refine ⟨claim2_extraction.2.1 "plain answer" rfl, ?_, ?_⟩
  · exact (claim2_extraction.1 badFcAnswer "f".data "\x7bbad\x7d".data rfl).2 (by decide)
  · exact (claim2_extraction.1 fcAnswer "get_weather".data jsonArgsEx.data rfl).1 (by decide)

/-- C8: a request whose chatbot UUID fails the lexical test, or whose message
extraction completes with an empty query, is rejected before the upstream
exchange: the handler never issues the outbound call. -/
theorem claim8_no_upstream :
    ∀ (req : Req) (now : Nat) (rand : String) (up : Option JsValue),
    uuidRejected req ∨ queryEmptyExtract req →
    (handle req now rand up).calledUpstream = false := by
  intro req now rand up hcond
  have hnot : ∀ n, normalize req now rand ≠ .ok n := by
    intro n hn
    unfold normalize at hn
    rcases hcond with ⟨tok, cu, hA, hU⟩ | ⟨sys, uk, lastC, hE⟩
    · rw [hA] at hn
      simp [hU] at hn
    · cases hA2 : authParse req.authorization with
      | error e => rw [hA2] at hn; exact Except.noConfusion hn
      | ok p =>
        obtain ⟨tok, cu⟩ := p
        rw [hA2] at hn
        by_cases hU : uuidTest (jsUndefStr cu) = true
        · simp [hU, hE] at hn
        · simp [hU] at hn
  unfold handle
  cases hN : normalize req now rand with
  | error e => rfl
  | ok n => exact absurd hN (hnot n)

/-- C8 witness: the rejection evaluated on a concrete request with a bad UUID. -/
theorem claim8_witness : (handle c8req 0 "r" none).calledUpstream = false :=
  claim8_no_upstream c8req 0 "r" none (Or.inl ⟨"tok", some "xyz", rfl, rfl⟩)

/-- Every response the handler model renders is completion-shaped. -/
theorem toJs_shaped (r : HResult) (uuid : String) (created : Int) :
    isCompletionShaped (r.toJs uuid created) = true := by
  obtain ⟨st, mo, fp, co, tc, us, ci, cu⟩ := r
  cases fp <;> rfl

/-- C9: for every inbound request with a JSON object or array body, arbitrary
headers and any upstream outcome, the handler produces a response body of the
OpenAI completion shape (the outer catch itself emits a completion-shaped
body), never an unstructured failure. -/
theorem claim9_shape :
    ∀ (req : Req) (now : Nat) (rand : String) (up : Option JsValue)
      (uuid : String) (created : Int),
    isObjOrArr req.body = true →
    isCompletionShaped ((handle req now rand up).toJs uuid created) = true := by
  intro req now rand up uuid created _h
  exact toJs_shaped _ uuid created

/-- C9 witness: the shape guarantee evaluated on a concrete request. -/
theorem claim9_witness :
    isObjOrArr c1req.body = true ∧
    isCompletionShaped ((handle c1req 0 "rr" none).toJs "u" 5) = true :=
  ⟨rfl, claim9_shape c1req 0 "rr" none "u" 5 rfl⟩

/-- Unfolding equation of the split at a cons cell. -/
theorem splitOnChar_cons (sep c : Char) (rest : List Char) :
    splitOnChar sep (c :: rest) =
      match splitOnChar sep rest with
      | [] => [[c]]
      | g :: gs => if c = sep then [] :: g :: gs else (c :: g) :: gs := rfl

/-- The split always returns at least one segment. -/
theorem splitOnChar_ne_nil (sep : Char) : ∀ l : List Char, splitOnChar sep l ≠ []
  | [] => by simp [splitOnChar]
  | c :: rest => by
    rw [splitOnChar_cons]
    cases hs : splitOnChar sep rest with
    | nil => simp
    | cons g gs => by_cases hc : c = sep <;> simp [hc]

/-- A separator-free list splits into itself alone. -/
theorem splitOnChar_no_sep (sep : Char) : ∀ a : List Char,
    (∀ c ∈ a, c ≠ sep) → splitOnChar sep a = [a]
  | [], _ => rfl
  | c :: rest, h => by
    rw [splitOnChar_cons, splitOnChar_no_sep sep rest (fun d hd => h d (List.mem_cons_of_mem c hd))]
    simp [h c (List.mem_cons_self c rest)]

/-- Splitting past a separator-free segment peels it off. -/
theorem splitOnChar_append (sep : Char) : ∀ (a r : List Char),
    (∀ c ∈ a, c ≠ sep) → splitOnChar sep (a ++ sep :: r) = a :: splitOnChar sep r
  | [], r, _ => by
    show splitOnChar sep (sep :: r) = [] :: splitOnChar sep r
    rw [splitOnChar_cons]
    cases hs : splitOnChar sep r with
    | nil => exact absurd hs (splitOnChar_ne_nil sep r)
    | cons g gs => simp
  | c :: a, r, h => by
    show splitOnChar sep (c :: (a ++ sep :: r)) = (c :: a) :: splitOnChar sep r
    rw [splitOnChar_cons, splitOnChar_append sep a r (fun d hd => h d (List.mem_cons_of_mem c hd))]
    simp [h c (List.mem_cons_self c a)]

/-- The header parse on any Bearer-prefixed header, reduced to the split. -/
theorem authParse_bearer (rest : String) :
    authParse (some ("Bearer " ++ rest)) =
      .ok (⟨(splitOnChar ':' (trimL rest.data)).headD []⟩,
        ((splitOnChar ':' (trimL rest.data)).get? 1).map (fun l => (⟨l⟩ : String))) := rfl

/-- C6 counterexample: the header remainder tok, then a valid UUID, then the
text extra, parses with the UUID segment alone as the chatbot UUID, which
passes the lexical test — the full request normalizes successfully — contrary
to the claim that the UUID capture would include the text after the second
colon and fail the test. -/
theorem claim6_counterexample :
    authParse (some "Bearer tok:aaaaaaaa-bbbb-cccc-dddd-eeeeeeeeeeee:extra") =
      .ok ("tok", some uuidEx) ∧
    ((uuidEx ++ ":extra") == uuidEx) = false ∧
    uuidTest uuidEx = true ∧
    normalize c6req 0 "r" =
      .ok ⟨"tok", uuidEx, "", "Hello", .str "n8n-0-r", some (.str "Hello")⟩ :=
  ⟨rfl, rfl, rfl, rfl⟩

/-- C6 (amended): the trimmed remainder is split on every colon and the first
two segments are destructured: the api token is the text before the first
colon, and the chatbot UUID is the second segment — the text between the first
and second colons — so any text after a second colon is discarded (and the
worked example therefore passes the UUID check). -/
theorem claim6_auth_split :
    (∀ t u : String, (∀ c ∈ t.data, c ≠ ':') → (∀ c ∈ u.data, c ≠ ':') →
       trimL (t.data ++ ':' :: u.data) = t.data ++ ':' :: u.data →
       authParse (some ("Bearer " ++ (t ++ ":" ++ u))) = .ok (t, some u)) ∧
    (∀ t u v : String, (∀ c ∈ t.data, c ≠ ':') → (∀ c ∈ u.data, c ≠ ':') →
       trimL (t.data ++ ':' :: (u.data ++ ':' :: v.data)) =
         t.data ++ ':' :: (u.data ++ ':' :: v.data) →
       authParse (some ("Bearer " ++ (t ++ ":" ++ u ++ ":" ++ v))) = .ok (t, some u)) ∧
    uuidTest uuidEx = true := by
  refine ⟨?_, ?_, rfl⟩
  · intro t u ht hu htrim
    rw [authParse_bearer (t ++ ":" ++ u)]
    have hdata : (t ++ ":" ++ u).data = t.data ++ ':' :: u.data := by
      show (t.data ++ [':']) ++ u.data = t.data ++ ':' :: u.data
      simp [List.append_assoc]
    rw [hdata, htrim, splitOnChar_append ':' t.data u.data ht,
      splitOnChar_no_sep ':' u.data hu]
    rfl
  · intro t u v ht hu htrim
    rw [authParse_bearer (t ++ ":" ++ u ++ ":" ++ v)]
    have hdata : (t ++ ":" ++ u ++ ":" ++ v).data =
        t.data ++ ':' :: (u.data ++ ':' :: v.data) := by
      show (((t.data ++ [':']) ++ u.data) ++ [':']) ++ v.data = _
      simp [List.append_assoc]
    rw [hdata, htrim, splitOnChar_append ':' t.data (u.data ++ ':' :: v.data) ht,
      splitOnChar_append ':' u.data v.data hu]
    rfl

/-- C6 witness: the amended split evaluated on the worked two-colon header. -/
theorem claim6_witness :
    authParse (some ("Bearer " ++ ("tok" ++ ":" ++ uuidEx ++ ":" ++ "extra"))) =
      .ok ("tok", some uuidEx) ∧
    uuidTest uuidEx = true :=
  ⟨claim6_auth_split.2.1 "tok" uuidEx "extra" (by decide) (by decide) (by decide),
   claim6_auth_split.2.2⟩

/-- A present header without the Bearer prefix fails the header parse. -/
theorem authParse_noBearer (h : String) (hpre : csPrefix bearerPat h.data = false) :
    authParse (some h) = .error authHeaderMsg := by
  show (if csPrefix bearerPat h.data = true then
      (let authData := trimL (jsReplaceFirstL h.data bearerPat)
       let parts := splitOnChar ':' authData
       Except.ok ((⟨parts.headD []⟩ : String),
         (parts.get? 1).map (fun l => (⟨l⟩ : String))))
    else .error authHeaderMsg) = .error authHeaderMsg
  rw [hpre]
  rfl

/-- A failing header parse makes the whole normalization fail with it. -/
theorem normalize_authError (req : Req) (now : Nat) (rand : String) (e : String)
    (hA : authParse req.authorization = .error e) :
    normalize req now rand = .error e := by
  unfold normalize
  rw [hA]

/-- A failing UUID lexical test makes normalization fail with the UUID error. -/
theorem normalize_uuidFail (req : Req) (now : Nat) (rand : String) (tok : String)
    (cu : Option String) (hA : authParse req.authorization = .ok (tok, cu))
    (hU : uuidTest (jsUndefStr cu) = false) :
    normalize req now rand = .error uuidErrMsg := by
  unfold normalize
  rw [hA]
  simp [hU]

/-- C7 counterexample: a Bearer header whose remainder holds no colon is
rejected through the UUID lexical test with the invalid-request classification
of the structured iterations, not the authentication classification the claim
predicts, and no outbound call is made. -/
theorem claim7_counterexample :
    normalize c7req 0 "r" = .error uuidErrMsg ∧
    errClassOfMsg uuidErrMsg = "invalid_request_error" ∧
    (errClassOfMsg uuidErrMsg == "authentication_error") = false ∧
    (handle c7req 0 "r" none).calledUpstream = false :=
  ⟨rfl, rfl, rfl, rfl⟩

/-- C7 (amended): a missing header or one without the Bearer prefix fails with
the authentication error; a remainder with no colon leaves the chatbot UUID
undefined, so it is rejected by the UUID lexical test with the
invalid-request (validation) classification; in every normalization failure no
outbound call is made. -/
theorem claim7_auth_errors :
    (∀ (xk xi : Option String) (body : JsValue) (now : Nat) (rand : String),
       normalize ⟨none, xk, xi, body⟩ now rand = .error authHeaderMsg) ∧
    (∀ (h : String) (xk xi : Option String) (body : JsValue) (now : Nat) (rand : String),
       csPrefix bearerPat h.data = false →
       normalize ⟨some h, xk, xi, body⟩ now rand = .error authHeaderMsg) ∧
    (∀ (rest : String) (xk xi : Option String) (body : JsValue) (now : Nat) (rand : String),
       (∀ c ∈ trimL rest.data, c ≠ ':') →
       normalize ⟨some ("Bearer " ++ rest), xk, xi, body⟩ now rand = .error uuidErrMsg) ∧
    errClassOfMsg authHeaderMsg = "authentication_error" ∧
    errClassOfMsg uuidErrMsg = "invalid_request_error" ∧
    (∀ (req : Req) (now : Nat) (rand : String) (up : Option JsValue) (e : String),
       normalize req now rand = .error e →
       (handle req now rand up).calledUpstream = false) := by
  refine ⟨fun xk xi body now rand => rfl, ?_, ?_, rfl, rfl, ?_⟩
  · intro h xk xi body now rand hpre
    exact normalize_authError _ now rand _ (authParse_noBearer h hpre)
  · intro rest xk xi body now rand hnc
    have hA : authParse (some ("Bearer " ++ rest)) = .ok (⟨trimL rest.data⟩, none) := by
      rw [authParse_bearer rest, splitOnChar_no_sep ':' (trimL rest.data) hnc]
      rfl
    exact normalize_uuidFail _ now rand _ none hA rfl
  · intro req now rand up e hn
    unfold handle
    rw [hn]
    rfl

/-- C7 witness: the three failure families and the no-call guarantee evaluated
on concrete requests. -/
theorem claim7_witness :
    normalize ⟨none, none, none, JsValue.obj []⟩ 0 "r" = .error authHeaderMsg ∧
    normalize ⟨some "Token abc", none, none, JsValue.obj []⟩ 0 "r" = .error authHeaderMsg ∧
    normalize ⟨some ("Bearer " ++ "tokenonly"), none, none, JsValue.obj []⟩ 0 "r" =
      .error uuidErrMsg ∧
    (handle ⟨none, none, none, JsValue.obj []⟩ 0 "r" none).calledUpstream = false :=
  ⟨claim7_auth_errors.1 none none _ 0 "r",
   claim7_auth_errors.2.1 "Token abc" none none _ 0 "r" (by decide),
   claim7_auth_errors.2.2.1 "tokenonly" none none _ 0 "r" (by decide),
   claim7_auth_errors.2.2.2.2.2 _ 0 "r" none authHeaderMsg
     (claim7_auth_errors.1 none none _ 0 "r")⟩

/-- Dropping a prefix never lengthens a list. -/
theorem dropWhile_length_le (p : Char → Bool) : ∀ l : List Char,
    (l.dropWhile p).length ≤ l.length
  | [] => Nat.le_refl 0
  | c :: rest => by
    rw [List.dropWhile]
    cases hc : p c
    · simp
    · simp
      exact Nat.le_succ_of_le (dropWhile_length_le p rest)

/-- A list fixed by dropWhile has a head rejected by the predicate. -/
theorem head_false_of_dropWhile_self (p : Char → Bool) (c : Char) (r : List Char)
    (h : List.dropWhile p (c :: r) = c :: r) : p c = false := by
  cases hc : p c
  · rfl
  · exfalso
    rw [List.dropWhile, hc] at h
    simp only [] at h
    have hlen := dropWhile_length_le p r
    rw [h] at hlen
    simp at hlen

/-- dropWhile leaves alone an append whose left part it leaves alone. -/
theorem dropWhile_append_self (p : Char → Bool) (a b : List Char)
    (ha : a.dropWhile p = a) (hne : a ≠ []) : (a ++ b).dropWhile p = a ++ b := by
  cases a with
  | nil => exact absurd rfl hne
  | cons c r =>
    have hc : p c = false := head_false_of_dropWhile_self p c r ha
    show List.dropWhile p (c :: (r ++ b)) = c :: (r ++ b)
    rw [List.dropWhile, hc]

/-- takeWhile keeps a list all of whose members the predicate accepts. -/
theorem takeWhile_all (p : Char → Bool) : ∀ l : List Char,
    (∀ c ∈ l, p c = true) → l.takeWhile p = l
  | [], _ => rfl
  | c :: rest, h => by
    rw [List.takeWhile, h c (List.mem_cons_self c rest)]
    rw [takeWhile_all p rest (fun d hd => h d (List.mem_cons_of_mem c hd))]

/-- The trim of a non-space-headed concrete prefix followed by a tail without
trailing whitespace is the list itself. -/
theorem trimL_human_concat (t : List Char)
    (h2 : t.reverse.dropWhile isJsSpace = t.reverse) (h3 : t ≠ []) :
    trimL ("Human: ".data ++ t) = "Human: ".data ++ t := by
  unfold trimL
  rw [show ("Human: ".data ++ t).dropWhile isJsSpace = "Human: ".data ++ t from rfl]
  rw [List.reverse_append]
  rw [dropWhile_append_self isJsSpace t.reverse _ h2 (by simpa using h3)]
  rw [List.reverse_append, List.reverse_reverse, List.reverse_reverse]

/-- Unfolding equation of the occurrence scan at the empty list. -/
theorem breakOnSubP_nil (pref : List Char → List Char → Bool) (pat : List Char) :
    breakOnSubP pref pat [] = if pref pat [] = true then some ([], []) else none := rfl

/-- Unfolding equation of the occurrence scan at a cons cell. -/
theorem breakOnSubP_cons (pref : List Char → List Char → Bool) (pat : List Char)
    (c : Char) (rest : List Char) :
    breakOnSubP pref pat (c :: rest) =
      if pref pat (c :: rest) = true then some ([], c :: rest)
      else
        match breakOnSubP pref pat rest with
        | some (p, s) => some (c :: p, s)
        | none => none := rfl

/-- A successful leftmost-occurrence split decomposes the list. -/
theorem breakOnSubP_decomp (pref : List Char → List Char → Bool) (pat : List Char)
    (l : List Char) : ∀ (p s : List Char), breakOnSubP pref pat l = some (p, s) → l = p ++ s := by
  induction l with
  | nil =>
    intro p s h
    rw [breakOnSubP_nil] at h
    by_cases hp : pref pat [] = true
    · rw [if_pos hp] at h
      injection h with h2
      injection h2 with ha hb
      rw [← ha, ← hb]
      rfl
    · rw [if_neg hp] at h
      exact Option.noConfusion h
  | cons c rest ih =>
    intro p s h
    rw [breakOnSubP_cons] at h
    by_cases hp : pref pat (c :: rest) = true
    · rw [if_pos hp] at h
      injection h with h2
      injection h2 with ha hb
      rw [← ha, ← hb]
      rfl
    · rw [if_neg hp] at h
      cases hrec : breakOnSubP pref pat rest with
      | none => rw [hrec] at h; exact Option.noConfusion h
      | some q =>
        obtain ⟨p2, s2⟩ := q
        rw [hrec] at h
        injection h with h2
        injection h2 with ha hb
        rw [← ha, ← hb, ih p2 s2 hrec]
        rfl

/-- No occurrence in an append means no occurrence in its right part. -/
theorem breakOnSubP_none_append (pref : List Char → List Char → Bool) (pat : List Char) :
    ∀ (a b : List Char), breakOnSubP pref pat (a ++ b) = none →
      breakOnSubP pref pat b = none
  | [], _, h => h
  | c :: a, b, h => by
    apply breakOnSubP_none_append pref pat a b
    rw [show (c :: a) ++ b = c :: (a ++ b) from rfl, breakOnSubP_cons] at h
    by_cases hp : pref pat (c :: (a ++ b)) = true
    · rw [if_pos hp] at h
      exact Option.noConfusion h
    · rw [if_neg hp] at h
      cases hrec : breakOnSubP pref pat (a ++ b) with
      | none => rfl
      | some q => rw [hrec] at h; exact Option.noConfusion h

/-- No occurrence in a list means no occurrence after dropping a prefix. -/
theorem breakOnSubP_none_drop (pref : List Char → List Char → Bool) (pat : List Char)
    (l : List Char) (k : Nat) (h : breakOnSubP pref pat l = none) :
    breakOnSubP pref pat (l.drop k) = none :=
  breakOnSubP_none_append pref pat (l.take k) (l.drop k)
    (by rw [List.take_append_drop]; exact h)

/-- Without a user-key occurrence the query match of the context block fails. -/
theorem queryCaptureL_none (l : List Char) (h : breakOnSubCI ukPat l = none) :
    queryCaptureL l = none := by
  unfold queryCaptureL
  cases hq : breakOnSubCI qPat l with
  | none => rfl
  | some p =>
    obtain ⟨pre, suf⟩ := p
    have hd : l = pre ++ suf :=
      breakOnSubP_decomp ciPrefix qPat l pre suf hq
    have h6 : breakOnSubCI ukPat suf = none :=
      breakOnSubP_none_append ciPrefix ukPat pre suf (hd ▸ h)
    have h7 : breakOnSubCI ukPat (suf.drop 6) = none :=
      breakOnSubP_none_drop ciPrefix ukPat suf 6 h6
    show (match breakOnSubCI ukPat (suf.drop 6) with
          | none => none
          | some (pre2, _) => some pre2) = (none : Option (List Char))
    rw [h7]

/-- Without a user-key occurrence the user-key match fails. -/
theorem userKeyCaptureL_none (l : List Char) (h : breakOnSubCI ukPat l = none) :
    userKeyCaptureL l = none := by
  unfold userKeyCaptureL
  rw [h]

/-- Evaluation of the context part once the block capture is known. -/
theorem contextoPart_eval (l cap : List Char) (hc : contextoCaptureL l = some cap) :
    contextoPart l =
      ((match queryCaptureL (trimL cap) with
        | some q => (⟨trimL q⟩ : String)
        | none => ""),
       (match userKeyCaptureL (trimL cap) with
        | some k => (⟨trimL k⟩ : String)
        | none => "")) := by
  unfold contextoPart
  rw [hc]

/-- C10 counterexample: for the marker line with nothing after it and a later
standalone Human line, the whitespace class after the Human literal crosses
the line break, so the fallback captures the whole next line — normalization
succeeds with query Human: hello instead of failing with the missing-message
error the claim predicts. -/
theorem claim10_counterexample :
    extractFromString "Contexto Extra Human:\nHuman: hello" = ("", "Human: hello", "") ∧
    normalize c10req 0 "r" =
      .ok ⟨"tok", uuidEx, "", "Human: hello", .str "n8n-0-r", some (.str "Human: hello")⟩ ∧
    exceptIsOk (normalize c10req 0 "r") = true ∧
    ("Human: hello" == "") = false :=
  ⟨rfl, rfl, rfl, rfl⟩

/-- The context-block capture of the doubled-Human family reduces to the text
after the marker, whatever the tail. -/
theorem contextoCaptureL_human (t : String) :
    contextoCaptureL ("Contexto Extra Human:\nHuman: " ++ t).data =
      some ("Human: ".data ++ t.data) := rfl

/-- The fallback capture of the doubled-Human family: the text after the first
Human literal and the whitespace (the line break included), cut at the next
line terminator. -/
theorem humanCaptureL_human (t : String) :
    humanCaptureL ("Contexto Extra Human:\nHuman: " ++ t).data =
      some ("Human: ".data ++ t.data.takeWhile (fun c => !isCRLF c)) := rfl

set_option maxHeartbeats 1000000 in
/-- C10 (amended): the Human fallback matches the first occurrence of the
Human literal anywhere in the string, including the one inside the
Contexto Extra Human marker, and the whitespace skipped after it includes line
breaks; hence for a context block that yields no query, the fallback query is
the trimmed text from the first non-whitespace character after the marker up
to the next line terminator — the entire next non-blank line, its own Human
prefix included, when nothing follows the marker on its line — and
normalization fails with the missing-message error only when nothing but
whitespace follows the marker. -/
theorem claim10_human_fallback :
    (∀ t : String, t.data ≠ [] →
       t.data.reverse.dropWhile isJsSpace = t.data.reverse →
       (∀ c ∈ t.data, isCRLF c = false) →
       breakOnSubCI ukPat ("Human: ".data ++ t.data) = none →
       (extractFromString ("Contexto Extra Human:\nHuman: " ++ t)).2.1 = "Human: " ++ t) ∧
    extractFromString "Contexto Extra Human:" = ("", "", "") ∧
    normalize (reqOf (.arr [.str "Contexto Extra Human:"]) []) 0 "r" = .error noMsgErrMsg := by
  refine ⟨?_, rfl, rfl⟩
  intro t h3 h2 h4 h5
  have htake : t.data.takeWhile (fun c => !isCRLF c) = t.data :=
    takeWhile_all _ t.data (fun c hc => by rw [h4 c hc]; rfl)
  have htrim : trimL ("Human: ".data ++ t.data) = "Human: ".data ++ t.data :=
    trimL_human_concat t.data h2 h3
  have hcp : contextoPart ("Contexto Extra Human:\nHuman: " ++ t).data = ("", "") := by
    rw [contextoPart_eval ("Contexto Extra Human:\nHuman: " ++ t).data
      ("Human: ".data ++ t.data) (contextoCaptureL_human t), htrim,
      queryCaptureL_none _ h5, userKeyCaptureL_none _ h5]
  have hhp : humanPart ("Contexto Extra Human:\nHuman: " ++ t).data = "Human: " ++ t := by
    unfold humanPart
    rw [humanCaptureL_human t, htake]
    show (⟨trimL ("Human: ".data ++ t.data)⟩ : String) = "Human: " ++ t
    rw [htrim]
    rfl
  show (if (contextoPart ("Contexto Extra Human:\nHuman: " ++ t).data).1 = "" then
      humanPart ("Contexto Extra Human:\nHuman: " ++ t).data
    else (contextoPart ("Contexto Extra Human:\nHuman: " ++ t).data).1) = "Human: " ++ t
  rw [hcp, hhp]
  simp

/-- C10 witness: the amended fallback evaluated at the concrete tail hello. -/
theorem claim10_witness :
    (extractFromString ("Contexto Extra Human:\nHuman: " ++ "hello")).2.1 =
      "Human: " ++ "hello" :=
  claim10_human_fallback.1 "hello" (by decide) (by decide) (by decide) (by decide)

end SimpAdapter
